import Mathlib

/-!
Verification of `mjpeg_server.py` (nslookupalexios/mjpeg_http_streamer).

Shallow embedding of the core of the server: the latest-frame store
(`LatestFrame`, `_update_latest`), the candidate-image filter
(`_is_candidate_image` over a pathlib-style `suffix`), the pruning sweep
(`prune_older_than_current`), the retrying loader (`_try_load_as_jpeg_bytes`),
the watchdog event handler (`NewImageHandler._handle` and the three event
callbacks), the bootstrap scan (`_bootstrap_folder`), and one iteration of
the streaming generator (`_mjpeg_generator`).

Modelling conventions:
- file paths are lists of string components (pathlib `parts`); `Path.name`
  is the final component and `pySuffix` reimplements `pathlib.PurePath.suffix`
  (rightmost dot of the final component, ignored when leading or trailing);
- byte strings are `List Nat`; modification times and durations are `ℚ`
  (the Python floats here are only subtracted and compared);
- the watched directory's immediate entries are a `List Entry`, each entry
  carrying the outcome of `stat` (`none` models a raised exception) and
  whether `unlink` would succeed (`unlink_ok = false` models a raised
  exception, which the source swallows);
- the nondeterministic outcome of decoding a possibly-in-flight file is an
  oracle `attempt : Nat → Option (List Nat)` giving the result of each retry.
-/

namespace MjpegServer

/-- A filesystem path, as its pathlib components (`PurePath.parts`). -/
structure Path where
  parts : List String
deriving DecidableEq, Repr

/-- The final component of the path (`PurePath.name`), as characters. -/
def Path.name (p : Path) : List Char :=
  (p.parts.getLastD "").data

/-- Index of the rightmost `'.'` in a character list (Python `str.rfind('.')`,
with `none` for "not found"). -/
def lastDotIdx : List Char → Option Nat
  | [] => none
  | c :: cs =>
    match lastDotIdx cs with
    | some i => some (i + 1)
    | none => if c = '.' then some 0 else none

/-- Model of `pathlib.PurePath.suffix` on the final component: the substring from the
rightmost dot, provided that dot is neither the first nor the last character;
otherwise empty. -/
def pySuffix (name : List Char) : List Char :=
  match lastDotIdx name with
  | some i => if 0 < i ∧ i < name.length - 1 then name.drop i else []
  | none => []

/-- Model of `_is_candidate_image`: the lower-cased suffix is `.jpg`, `.jpeg` or `.png`. -/
def _is_candidate_image (p : Path) : Bool :=
  let sfx := (pySuffix p.name).map Char.toLower
  sfx == ".jpg".data || sfx == ".jpeg".data || sfx == ".png".data

/-- Helper for `relative_to`: does `base.parts` start the component list `ps`?  -/
def partsStart : List String → List String → Bool
  | [], _ => true
  | _ :: _, [] => false
  | a :: as, b :: bs => a == b && partsStart as bs

/-- Model of `path.relative_to(folder)`: it succeeds (does not raise `ValueError`) iff the
folder's components lead the path's components. -/
def relative_to_ok (p folder : Path) : Bool :=
  partsStart folder.parts p.parts

/-- The shared latest-frame record (`LatestFrame`), minus the lock: the lock
only serializes the two accesses below, so the model is the sequential
interleaving of atomic operations on these three fields. -/
structure LatestFrame where
  jpeg_bytes : List Nat
  seq : Nat
  path : Option Path
deriving DecidableEq, Repr

/-- Model of `_update_latest`: replace the bytes, bump `seq` by one, replace the path,
as one atomic step (the body of the `with latest.lock` block). -/
def _update_latest (latest : LatestFrame) (jpeg : List Nat) (path : Path) : LatestFrame :=
  { jpeg_bytes := jpeg, seq := latest.seq + 1, path := some path }

/-- A consistent read of the three fields at one instant (the reads a
streaming iteration performs under the lock, plus `seq`). -/
def snapshot (latest : LatestFrame) : List Nat × Option Path × Nat :=
  (latest.jpeg_bytes, latest.path, latest.seq)

/-- The atomic operations the lock serializes. -/
inductive StoreOp
  | publish (jpeg : List Nat) (path : Path)
  | snap
deriving DecidableEq, Repr

/-- Effect of one atomic operation on the store. -/
def runOp : LatestFrame → StoreOp → LatestFrame
  | s, .publish j p => _update_latest s j p
  | s, .snap => s

/-- Effect of a serialized history of operations on the store. -/
def runOps (s : LatestFrame) (ops : List StoreOp) : LatestFrame :=
  ops.foldl runOp s

theorem runOps_nil (s : LatestFrame) : runOps s [] = s := rfl

theorem runOps_cons (s : LatestFrame) (op : StoreOp) (ops : List StoreOp) :
    runOps s (op :: ops) = runOps (runOp s op) ops := rfl

theorem seq_runOp_le (s : LatestFrame) (op : StoreOp) : s.seq ≤ (runOp s op).seq := by
  cases op with
  | publish j p => exact Nat.le_succ _
  | snap => exact Nat.le_refl _

theorem seq_runOps_le (ops : List StoreOp) (s : LatestFrame) :
    s.seq ≤ (runOps s ops).seq := by
  induction ops generalizing s with
  | nil => exact Nat.le_refl _
  | cons op ops ih =>
    exact Nat.le_trans (seq_runOp_le s op) (ih (runOp s op))

theorem runOps_seq_eq (ops : List StoreOp) (s : LatestFrame)
    (h : (runOps s ops).seq = s.seq) : runOps s ops = s := by
  induction ops generalizing s with
  | nil => rfl
  | cons op ops ih =>
    cases op with
    | snap => exact ih s h
    | publish j p =>
      exfalso
      have h1 : (_update_latest s j p).seq ≤ (runOps (_update_latest s j p) ops).seq :=
        seq_runOps_le ops _
      rw [runOps_cons] at h
      simp only [runOp] at h
      rw [h] at h1
      simp [_update_latest] at h1

/-- C1: publishing frame A then frame B and then taking a snapshot yields
B's bytes, B's path, and a sequence number exactly 2 greater than the
store's sequence before the two publishes. -/
theorem publish_publish_snapshot (s : LatestFrame) (ja jb : List Nat) (pa pb : Path) :
    snapshot (_update_latest (_update_latest s ja pa) jb pb) = (jb, some pb, s.seq + 2) :=
  rfl

/-- C2: a publish replaces bytes and path and bumps `seq` by exactly one as a
single atomic step; along every serialized history of operations `seq` never
decreases; a history that leaves `seq` unchanged leaves the bytes and path
unchanged too (no stale-bytes/new-sequence combination); and a snapshot
returns exactly the store's current triple (no torn read). -/
theorem store_invariants (s : LatestFrame) (ops : List StoreOp) (j : List Nat) (p : Path) :
    _update_latest s j p = { jpeg_bytes := j, seq := s.seq + 1, path := some p } ∧
    s.seq ≤ (runOps s ops).seq ∧
    ((runOps s ops).seq = s.seq → runOps s ops = s) ∧
    snapshot (runOps s ops) =
      ((runOps s ops).jpeg_bytes, (runOps s ops).path, (runOps s ops).seq) :=
  ⟨rfl, seq_runOps_le ops s, runOps_seq_eq ops s, rfl⟩

/-- C2, witnessed on a concrete history: one publish then a snapshot, on the
initial store. -/
theorem store_invariants_witness :
    _update_latest { jpeg_bytes := [], seq := 0, path := none } [7] { parts := ["a"] } =
      { jpeg_bytes := [7], seq := 1, path := some { parts := ["a"] } } ∧
    ({ jpeg_bytes := [], seq := 0, path := none } : LatestFrame).seq ≤
      (runOps { jpeg_bytes := [], seq := 0, path := none }
        [.publish [7] { parts := ["a"] }, .snap]).seq ∧
    runOps { jpeg_bytes := [], seq := 0, path := none } [.snap, .snap] =
      { jpeg_bytes := [], seq := 0, path := none } :=
  ⟨(store_invariants { jpeg_bytes := [], seq := 0, path := none }
      [.publish [7] { parts := ["a"] }, .snap] [7] { parts := ["a"] }).1,
   (store_invariants { jpeg_bytes := [], seq := 0, path := none }
      [.publish [7] { parts := ["a"] }, .snap] [7] { parts := ["a"] }).2.1,
   (store_invariants { jpeg_bytes := [], seq := 0, path := none }
      [.snap, .snap] [7] { parts := ["a"] }).2.2.1 rfl⟩

/-- One immediate entry of the watched directory, together with the outcome
of the filesystem calls the sweep would make on it: `stat = none` models
`p.stat()` raising, `unlink_ok = false` models `p.unlink()` raising. -/
structure Entry where
  path : Path
  is_file : Bool
  stat : Option ℚ
  unlink_ok : Bool
deriving DecidableEq, Repr

/-- The sweep body: the entry is actually deleted iff it is a regular file,
passes the candidate filter, its `stat` succeeds with an mtime strictly below
the threshold, and its `unlink` succeeds.  Any raised exception (stat or
unlink) is swallowed and leaves the entry in place. -/
def deletedBy (threshold : ℚ) (p : Entry) : Bool :=
  p.is_file && _is_candidate_image p.path &&
    (match p.stat with
     | some m => decide (m < threshold)
     | none => false) &&
    p.unlink_ok

/-- Model of `prune_older_than_current(folder, current_path, max_age_s)`: the entries
of the folder that remain after the sweep.  `current_stat` is the outcome of
`current_path.stat().st_mtime` (`none` models a raised exception). -/
def prune_older_than_current (entries : List Entry) (current_path : Option Path)
    (max_age_s : ℚ) (current_stat : Option ℚ) : List Entry :=
  match current_path with
  | none => entries
  | some _ =>
    if max_age_s ≤ 0 then entries
    else
      match current_stat with
      | none => entries
      | some current_mtime =>
        entries.filter (fun p => !deletedBy (current_mtime - max_age_s) p)

theorem prune_cur_none (entries : List Entry) (max_age_s : ℚ) (cstat : Option ℚ) :
    prune_older_than_current entries none max_age_s cstat = entries := rfl

theorem prune_nonpos_age (entries : List Entry) (cur : Option Path) (max_age_s : ℚ)
    (cstat : Option ℚ) (h : max_age_s ≤ 0) :
    prune_older_than_current entries cur max_age_s cstat = entries := by
  cases cur with
  | none => rfl
  | some c => simp [prune_older_than_current, if_pos h]

theorem prune_stat_none (entries : List Entry) (cur : Option Path) (max_age_s : ℚ) :
    prune_older_than_current entries cur max_age_s none = entries := by
  cases cur with
  | none => rfl
  | some c =>
    by_cases h : max_age_s ≤ 0 <;> simp [prune_older_than_current, h]

theorem prune_some_some (entries : List Entry) (c : Path) (max_age_s t : ℚ)
    (h : ¬ max_age_s ≤ 0) :
    prune_older_than_current entries (some c) max_age_s (some t) =
      entries.filter (fun p => !deletedBy (t - max_age_s) p) := by
  simp [prune_older_than_current, if_neg h]

/-- C3: with a positive age window and a stat-able current file, and when the
per-file filesystem calls succeed, the sweep deletes exactly the regular
files passing the candidate filter whose mtime is strictly older than
`modTime(current) - maxAge`, and retains all others. -/
theorem prune_deletes_exactly_stale (entries : List Entry) (cur : Path) (max_age_s t : ℚ)
    (hage : 0 < max_age_s)
    (hok : ∀ e ∈ entries, e.unlink_ok = true) :
    ∀ e ∈ entries, ∀ m, e.stat = some m →
      (e ∈ prune_older_than_current entries (some cur) max_age_s (some t) ↔
        ¬(e.is_file = true ∧ _is_candidate_image e.path = true ∧ m < t - max_age_s)) := by
  intro e he m hm
  rw [prune_some_some entries cur max_age_s t (not_le.mpr hage)]
  constructor
  · intro hmem hbad
    obtain ⟨hf, hc, hlt⟩ := hbad
    have hdel : deletedBy (t - max_age_s) e = true := by
      simp [deletedBy, hf, hc, hm, hok e he, hlt]
    have hkeep := (List.mem_filter.mp hmem).2
    rw [hdel] at hkeep
    simp at hkeep
  · intro hnot
    refine List.mem_filter.mpr ⟨he, ?_⟩
    cases hfv : e.is_file with
    | false => simp [deletedBy, hfv]
    | true =>
      cases hcv : _is_candidate_image e.path with
      | false => simp [deletedBy, hcv]
      | true =>
        have hge : ¬ m < t - max_age_s := fun hlt => hnot ⟨hfv, hcv, hlt⟩
        simp [deletedBy, hm, hge]

/-- C3, witnessed on the spec's scenario: files at `t-15`, `t-9`, `t-3`, the
current file at `t = 100`, `maxAgeSeconds = 10`; only the `t-15` file is
deleted, and the sweep characterization holds at each entry. -/
theorem prune_deletes_exactly_stale_witness :
    (0 : ℚ) < 10 ∧
    (∀ e ∈ [({ path := { parts := ["d", "a.jpg"] }, is_file := true, stat := some 85,
                unlink_ok := true } : Entry),
             { path := { parts := ["d", "b.jpg"] }, is_file := true, stat := some 91,
               unlink_ok := true },
             { path := { parts := ["d", "c.jpg"] }, is_file := true, stat := some 97,
               unlink_ok := true },
             { path := { parts := ["d", "cur.jpg"] }, is_file := true, stat := some 100,
               unlink_ok := true }], e.unlink_ok = true) ∧
    prune_older_than_current
        [{ path := { parts := ["d", "a.jpg"] }, is_file := true, stat := some 85,
           unlink_ok := true },
         { path := { parts := ["d", "b.jpg"] }, is_file := true, stat := some 91,
           unlink_ok := true },
         { path := { parts := ["d", "c.jpg"] }, is_file := true, stat := some 97,
           unlink_ok := true },
         { path := { parts := ["d", "cur.jpg"] }, is_file := true, stat := some 100,
           unlink_ok := true }]
        (some { parts := ["d", "cur.jpg"] }) 10 (some 100) =
      [{ path := { parts := ["d", "b.jpg"] }, is_file := true, stat := some 91,
         unlink_ok := true },
       { path := { parts := ["d", "c.jpg"] }, is_file := true, stat := some 97,
         unlink_ok := true },
       { path := { parts := ["d", "cur.jpg"] }, is_file := true, stat := some 100,
         unlink_ok := true }] ∧
    (∀ e ∈ [({ path := { parts := ["d", "a.jpg"] }, is_file := true, stat := some 85,
                unlink_ok := true } : Entry),
             { path := { parts := ["d", "b.jpg"] }, is_file := true, stat := some 91,
               unlink_ok := true },
             { path := { parts := ["d", "c.jpg"] }, is_file := true, stat := some 97,
               unlink_ok := true },
             { path := { parts := ["d", "cur.jpg"] }, is_file := true, stat := some 100,
               unlink_ok := true }], ∀ m, e.stat = some m →
        (e ∈ prune_older_than_current
            [{ path := { parts := ["d", "a.jpg"] }, is_file := true, stat := some 85,
               unlink_ok := true },
             { path := { parts := ["d", "b.jpg"] }, is_file := true, stat := some 91,
               unlink_ok := true },
             { path := { parts := ["d", "c.jpg"] }, is_file := true, stat := some 97,
               unlink_ok := true },
             { path := { parts := ["d", "cur.jpg"] }, is_file := true, stat := some 100,
               unlink_ok := true }]
            (some { parts := ["d", "cur.jpg"] }) 10 (some 100) ↔
          ¬(e.is_file = true ∧ _is_candidate_image e.path = true ∧ m < 100 - 10))) :=
  ⟨by norm_num, by decide,
   by
    rw [prune_some_some _ _ _ _ (by norm_num)]
    simp only [(by norm_num : (100 : ℚ) - 10 = 90)]
    decide,
   prune_deletes_exactly_stale _ { parts := ["d", "cur.jpg"] } 10 100
     (by norm_num) (by decide)⟩

/-- C4: pruning is a no-op (and, being a total function, raises nothing)
when the current path is absent, when the age window is non-positive, or
when the current path cannot be stat'd; a per-file stat or unlink failure
leaves that file in place, and the sweep is a pointwise filter, so one
file's failure never affects the decision on any other file and no error
reaches the caller. -/
theorem prune_best_effort (entries : List Entry) (cur : Option Path) (max_age_s : ℚ)
    (cstat : Option ℚ) :
    (cur = none → prune_older_than_current entries cur max_age_s cstat = entries) ∧
    (max_age_s ≤ 0 → prune_older_than_current entries cur max_age_s cstat = entries) ∧
    (cstat = none → prune_older_than_current entries cur max_age_s cstat = entries) ∧
    (∀ e ∈ entries, (e.stat = none ∨ e.unlink_ok = false) →
      e ∈ prune_older_than_current entries cur max_age_s cstat) ∧
    (∀ c t, cur = some c → cstat = some t → 0 < max_age_s →
      ∀ e, e ∈ prune_older_than_current entries cur max_age_s cstat ↔
        e ∈ entries ∧ deletedBy (t - max_age_s) e = false) := by
  refine ⟨?_, ?_, ?_, ?_, ?_⟩
  · rintro rfl; rfl
  · intro h; exact prune_nonpos_age entries cur max_age_s cstat h
  · rintro rfl; exact prune_stat_none entries cur max_age_s
  · intro e he hfail
    cases cur with
    | none => exact he
    | some c =>
      by_cases hma : max_age_s ≤ 0
      · rw [prune_nonpos_age entries _ _ _ hma]; exact he
      · cases cstat with
        | none => rw [prune_stat_none]; exact he
        | some t =>
          rw [prune_some_some entries c max_age_s t hma]
          refine List.mem_filter.mpr ⟨he, ?_⟩
          rcases hfail with hs | hu
          · simp [deletedBy, hs]
          · simp [deletedBy, hu]
  · rintro c t rfl rfl hma e
    rw [prune_some_some entries c max_age_s t (not_le.mpr hma)]
    rw [List.mem_filter]
    simp

/-- C4, witnessed: each no-op guard on a concrete sweep, a stat-failing and
an unlink-failing entry surviving a concrete sweep, and the pointwise
characterization at a concrete entry. -/
theorem prune_best_effort_witness :
    prune_older_than_current
        [{ path := { parts := ["c.jpg"] }, is_file := true, stat := some 80,
           unlink_ok := true }] none 10 (some 100) =
      [{ path := { parts := ["c.jpg"] }, is_file := true, stat := some 80,
         unlink_ok := true }] ∧
    prune_older_than_current
        [{ path := { parts := ["c.jpg"] }, is_file := true, stat := some 80,
           unlink_ok := true }] (some { parts := ["cur.jpg"] }) (-1) (some 100) =
      [{ path := { parts := ["c.jpg"] }, is_file := true, stat := some 80,
         unlink_ok := true }] ∧
    prune_older_than_current
        [{ path := { parts := ["c.jpg"] }, is_file := true, stat := some 80,
           unlink_ok := true }] (some { parts := ["cur.jpg"] }) 10 none =
      [{ path := { parts := ["c.jpg"] }, is_file := true, stat := some 80,
         unlink_ok := true }] ∧
    ({ path := { parts := ["a.jpg"] }, is_file := true, stat := none,
       unlink_ok := true } : Entry) ∈ prune_older_than_current
        [{ path := { parts := ["a.jpg"] }, is_file := true, stat := none,
           unlink_ok := true },
         { path := { parts := ["b.jpg"] }, is_file := true, stat := some 80,
           unlink_ok := false }] (some { parts := ["cur.jpg"] }) 10 (some 100) ∧
    ({ path := { parts := ["b.jpg"] }, is_file := true, stat := some 80,
       unlink_ok := false } : Entry) ∈ prune_older_than_current
        [{ path := { parts := ["a.jpg"] }, is_file := true, stat := none,
           unlink_ok := true },
         { path := { parts := ["b.jpg"] }, is_file := true, stat := some 80,
           unlink_ok := false }] (some { parts := ["cur.jpg"] }) 10 (some 100) ∧
    (({ path := { parts := ["c.jpg"] }, is_file := true, stat := some 80,
        unlink_ok := true } : Entry) ∈ prune_older_than_current
        [{ path := { parts := ["c.jpg"] }, is_file := true, stat := some 80,
           unlink_ok := true }] (some { parts := ["cur.jpg"] }) 10 (some 100) ↔
      ({ path := { parts := ["c.jpg"] }, is_file := true, stat := some 80,
         unlink_ok := true } : Entry) ∈
        [({ path := { parts := ["c.jpg"] }, is_file := true, stat := some 80,
            unlink_ok := true } : Entry)] ∧
      deletedBy (100 - 10)
        { path := { parts := ["c.jpg"] }, is_file := true, stat := some 80,
          unlink_ok := true } = false) :=
  ⟨(prune_best_effort _ none 10 (some 100)).1 rfl,
   (prune_best_effort _ (some { parts := ["cur.jpg"] }) (-1) (some 100)).2.1 (by norm_num),
   (prune_best_effort _ (some { parts := ["cur.jpg"] }) 10 none).2.2.1 rfl,
   (prune_best_effort _ (some { parts := ["cur.jpg"] }) 10 (some 100)).2.2.2.1 _
     (List.Mem.head _) (Or.inl rfl),
   (prune_best_effort _ (some { parts := ["cur.jpg"] }) 10 (some 100)).2.2.2.1 _
     (List.Mem.tail _ (List.Mem.head _)) (Or.inr rfl),
   (prune_best_effort _ (some { parts := ["cur.jpg"] }) 10 (some 100)).2.2.2.2
     { parts := ["cur.jpg"] } 100 rfl rfl (by norm_num) _⟩

/-- C10: with a positive age window, the sweep never deletes the current
reference file itself (provided its mtime is unchanged between the threshold
computation and the per-file check), nor any file whose mtime is at least
the threshold `t - maxAge`: the deletion comparison is strict. -/
theorem prune_keeps_current_and_fresh (entries : List Entry) (cur : Path)
    (max_age_s t m : ℚ) (e : Entry)
    (hage : 0 < max_age_s) (he : e ∈ entries) (hm : e.stat = some m)
    (h : (e.path = cur ∧ m = t) ∨ t - max_age_s ≤ m) :
    e ∈ prune_older_than_current entries (some cur) max_age_s (some t) := by
  have hth : t - max_age_s ≤ m := by
    rcases h with ⟨hp, hmt⟩ | h
    · rw [hmt]; linarith
    · exact h
  rw [prune_some_some entries cur max_age_s t (not_le.mpr hage)]
  refine List.mem_filter.mpr ⟨he, ?_⟩
  have hd : decide (m < t - max_age_s) = false := decide_eq_false (not_lt.mpr hth)
  simp [deletedBy, hm, hd]

/-- C10, witnessed: the current file itself (mtime `100`) and a fresh file
(mtime `95`, threshold `90`) both survive a concrete sweep with
`maxAgeSeconds = 10`. -/
theorem prune_keeps_current_and_fresh_witness :
    ({ path := { parts := ["cur.jpg"] }, is_file := true, stat := some 100,
       unlink_ok := true } : Entry) ∈ prune_older_than_current
        [{ path := { parts := ["cur.jpg"] }, is_file := true, stat := some 100,
           unlink_ok := true },
         { path := { parts := ["f.jpg"] }, is_file := true, stat := some 95,
           unlink_ok := true }] (some { parts := ["cur.jpg"] }) 10 (some 100) ∧
    ({ path := { parts := ["f.jpg"] }, is_file := true, stat := some 95,
       unlink_ok := true } : Entry) ∈ prune_older_than_current
        [{ path := { parts := ["cur.jpg"] }, is_file := true, stat := some 100,
           unlink_ok := true },
         { path := { parts := ["f.jpg"] }, is_file := true, stat := some 95,
           unlink_ok := true }] (some { parts := ["cur.jpg"] }) 10 (some 100) :=
  ⟨prune_keeps_current_and_fresh _ { parts := ["cur.jpg"] } 10 100 100 _
     (by norm_num) (List.Mem.head _) rfl (Or.inl ⟨rfl, rfl⟩),
   prune_keeps_current_and_fresh _ { parts := ["cur.jpg"] } 10 100 95 _
     (by norm_num) (List.Mem.tail _ (List.Mem.head _)) rfl
     (Or.inr (by norm_num))⟩

/-- The `sleep_s` default of `_try_load_as_jpeg_bytes`: 0.02 s = 20 ms. -/
def sleep_s : ℚ := 1 / 50

/-- The `max_attempts` default of `_try_load_as_jpeg_bytes`. -/
def max_attempts : Nat := 5

/-- The retry loop of `_try_load_as_jpeg_bytes`.  `attempt i` is the outcome
of the `i`-th full read-decode-re-encode try (`none` models any raised
exception, which the loop swallows before sleeping `sleep_s` and retrying;
the outcomes may differ between tries because a concurrent producer may be
writing the file).  The value is the returned bytes together with the number
of tries made and the number of sleeps performed. -/
def tryLoadLoop (attempt : Nat → Option (List Nat)) :
    Nat → Nat → Option (List Nat) × Nat × Nat
  | 0, _ => (none, 0, 0)
  | n + 1, i =>
    match attempt i with
    | some b => (some b, 1, 0)
    | none =>
      ((tryLoadLoop attempt n (i + 1)).1, (tryLoadLoop attempt n (i + 1)).2.1 + 1,
       (tryLoadLoop attempt n (i + 1)).2.2 + 1)

/-- Model of `_try_load_as_jpeg_bytes(path)`: the bytes of the first successful try
among `max_attempts`, or `none` when every try raises.  The model carries the
watched directory's entries through unchanged: the source opens the file for
reading only, so the call can neither mutate nor delete it. -/
def _try_load_as_jpeg_bytes (attempt : Nat → Option (List Nat)) (entries : List Entry) :
    Option (List Nat) × List Entry :=
  ((tryLoadLoop attempt max_attempts 0).1, entries)

theorem tryLoadLoop_attempts_le (attempt : Nat → Option (List Nat)) (n : Nat) :
    ∀ i, (tryLoadLoop attempt n i).2.1 ≤ n := by
  induction n with
  | zero => intro i; simp [tryLoadLoop]
  | succ n ih =>
    intro i
    simp only [tryLoadLoop]
    cases h : attempt i with
    | some b => simp
    | none => simpa using Nat.succ_le_succ (ih (i + 1))

theorem tryLoadLoop_none_iff (attempt : Nat → Option (List Nat)) (n : Nat) :
    ∀ i, ((tryLoadLoop attempt n i).1 = none ↔ ∀ k < n, attempt (i + k) = none) := by
  induction n with
  | zero => intro i; simp [tryLoadLoop]
  | succ n ih =>
    intro i
    simp only [tryLoadLoop]
    cases h : attempt i with
    | some b =>
      simp only []
      constructor
      · intro hc; simp at hc
      · intro hall
        have h0 := hall 0 (Nat.succ_pos n)
        rw [Nat.add_zero, h] at h0
        simp at h0
    | none =>
      simp only []
      rw [ih (i + 1)]
      constructor
      · intro hall k hk
        match k with
        | 0 => simpa using h
        | j + 1 =>
          have hj : j < n := by omega
          have := hall j hj
          have harith : i + 1 + j = i + (j + 1) := by omega
          rwa [harith] at this
      · intro hall k hk
        have harith : i + 1 + k = i + (k + 1) := by omega
        rw [harith]
        exact hall (k + 1) (by omega)

theorem tryLoadLoop_none_attempts (attempt : Nat → Option (List Nat)) (n : Nat) :
    ∀ i, (tryLoadLoop attempt n i).1 = none → (tryLoadLoop attempt n i).2.1 = n := by
  induction n with
  | zero => intro i _; rfl
  | succ n ih =>
    intro i
    simp only [tryLoadLoop]
    cases h : attempt i with
    | some b => intro hc; simp at hc
    | none =>
      intro hc
      simp only [] at hc ⊢
      rw [ih (i + 1) hc]

theorem tryLoadLoop_none_sleeps (attempt : Nat → Option (List Nat)) (n : Nat) :
    ∀ i, (tryLoadLoop attempt n i).1 = none → (tryLoadLoop attempt n i).2.2 = n := by
  induction n with
  | zero => intro i _; rfl
  | succ n ih =>
    intro i
    simp only [tryLoadLoop]
    cases h : attempt i with
    | some b => intro hc; simp at hc
    | none =>
      intro hc
      simp only [] at hc ⊢
      rw [ih (i + 1) hc]

theorem tryLoadLoop_attempts_le_sleeps (attempt : Nat → Option (List Nat)) (n : Nat) :
    ∀ i, (tryLoadLoop attempt n i).2.1 ≤ (tryLoadLoop attempt n i).2.2 + 1 := by
  induction n with
  | zero => intro i; simp [tryLoadLoop]
  | succ n ih =>
    intro i
    simp only [tryLoadLoop]
    cases h : attempt i with
    | some b => simp
    | none => simpa using Nat.succ_le_succ (ih (i + 1))

/-- C5: for every input, the loader makes at most 5 full decode attempts;
every attempt after the first is preceded by a sleep of `sleep_s = 1/50` s
(≈20 ms); it returns `none` exactly when all 5 attempts raise (when all
fail it has made 5 attempts and slept 5 times); and it leaves the directory
contents untouched — being a total function, it raises nothing to its
caller. -/
theorem try_load_retry_contract (attempt : Nat → Option (List Nat)) (entries : List Entry) :
    (tryLoadLoop attempt max_attempts 0).2.1 ≤ 5 ∧
    ((_try_load_as_jpeg_bytes attempt entries).1 = none ↔ ∀ k < 5, attempt k = none) ∧
    (tryLoadLoop attempt max_attempts 0).2.1 ≤ (tryLoadLoop attempt max_attempts 0).2.2 + 1 ∧
    ((_try_load_as_jpeg_bytes attempt entries).1 = none →
      (tryLoadLoop attempt max_attempts 0).2.1 = 5 ∧
      (tryLoadLoop attempt max_attempts 0).2.2 = 5) ∧
    sleep_s = 1 / 50 ∧
    (_try_load_as_jpeg_bytes attempt entries).2 = entries := by
  refine ⟨tryLoadLoop_attempts_le attempt max_attempts 0, ?_,
    tryLoadLoop_attempts_le_sleeps attempt max_attempts 0, ?_, rfl, rfl⟩
  · have := tryLoadLoop_none_iff attempt max_attempts 0
    simpa [_try_load_as_jpeg_bytes, max_attempts] using this
  · intro hnone
    have hn : (tryLoadLoop attempt max_attempts 0).1 = none := hnone
    exact ⟨tryLoadLoop_none_attempts attempt max_attempts 0 hn,
      tryLoadLoop_none_sleeps attempt max_attempts 0 hn⟩

/-- C5, witnessed at the always-failing oracle on a one-entry directory. -/
theorem try_load_retry_contract_witness :
    (tryLoadLoop (fun _ => none) max_attempts 0).2.1 ≤ 5 ∧
    ((_try_load_as_jpeg_bytes (fun _ => none)
        [{ path := { parts := ["a.jpg"] }, is_file := true, stat := some 1,
           unlink_ok := true }]).1 = none ↔ ∀ k < 5, (fun _ => none : Nat → Option (List Nat)) k = none) ∧
    (tryLoadLoop (fun _ => none) max_attempts 0).2.1 ≤
      (tryLoadLoop (fun _ => none) max_attempts 0).2.2 + 1 ∧
    ((_try_load_as_jpeg_bytes (fun _ => none)
        [{ path := { parts := ["a.jpg"] }, is_file := true, stat := some 1,
           unlink_ok := true }]).1 = none →
      (tryLoadLoop (fun _ => none) max_attempts 0).2.1 = 5 ∧
      (tryLoadLoop (fun _ => none) max_attempts 0).2.2 = 5) ∧
    sleep_s = 1 / 50 ∧
    (_try_load_as_jpeg_bytes (fun _ => none)
        [{ path := { parts := ["a.jpg"] }, is_file := true, stat := some 1,
           unlink_ok := true }]).2 =
      [{ path := { parts := ["a.jpg"] }, is_file := true, stat := some 1,
         unlink_ok := true }] :=
  try_load_retry_contract (fun _ => none)
    [{ path := { parts := ["a.jpg"] }, is_file := true, stat := some 1, unlink_ok := true }]

/-- The state the ingestion pipeline can affect: the per-source store and
the watched directory's immediate entries. -/
structure World where
  latest : LatestFrame
  entries : List Entry
deriving DecidableEq, Repr

/-- Model of `NewImageHandler._handle(path)`.  `load` gives, per path, the outcome of
`_try_load_as_jpeg_bytes` (the bytes of the first successful attempt, `none`
when every attempt raises); `statOf` gives the outcome of
`path.stat().st_mtime` when pruning stats the current file. -/
def NewImageHandler_handle (folder : Path) (load : Path → Option (List Nat))
    (statOf : Path → Option ℚ) (max_age_s : ℚ) (path : Path) (w : World) : World :=
  if ¬ _is_candidate_image path then w
  else if ¬ relative_to_ok path folder then w
  else
    match load path with
    | none => w
    | some jpeg =>
      { latest := _update_latest w.latest jpeg path,
        entries := prune_older_than_current w.entries (some path) max_age_s (statOf path) }

/-- The three watchdog callbacks the handler overrides. -/
inductive EventKind
  | created
  | moved
  | modified
deriving DecidableEq, Repr

/-- A watchdog filesystem event: its kind, the directory flag, and its
source/destination paths (`dest_path` is only meaningful for `moved`). -/
structure FsEvent where
  kind : EventKind
  is_directory : Bool
  src_path : Path
  dest_path : Path
deriving DecidableEq, Repr

/-- The path the triggered callback hands to `_handle`: `dest_path` for
`on_moved`, `src_path` for `on_created` and `on_modified`. -/
def eventTarget (e : FsEvent) : Path :=
  match e.kind with
  | .moved => e.dest_path
  | _ => e.src_path

/-- Dispatch of one event through `on_created` / `on_moved` / `on_modified`:
each callback discards directory events and otherwise calls `_handle` on the
affected path. -/
def onEvent (folder : Path) (load : Path → Option (List Nat))
    (statOf : Path → Option ℚ) (max_age_s : ℚ) (e : FsEvent) (w : World) : World :=
  match e.kind with
  | .created =>
    if e.is_directory then w
    else NewImageHandler_handle folder load statOf max_age_s e.src_path w
  | .moved =>
    if e.is_directory then w
    else NewImageHandler_handle folder load statOf max_age_s e.dest_path w
  | .modified =>
    if e.is_directory then w
    else NewImageHandler_handle folder load statOf max_age_s e.src_path w

/-- C6: an event that targets a directory, or whose path fails the
case-insensitive `.jpg`/`.jpeg`/`.png` filter, or whose path does not lie
inside the watched directory, is discarded: the store is not published,
pruning is not invoked, and the world is unchanged. -/
theorem watcher_discards_filtered (folder : Path) (load : Path → Option (List Nat))
    (statOf : Path → Option ℚ) (max_age_s : ℚ) (e : FsEvent) (w : World)
    (h : e.is_directory = true ∨ _is_candidate_image (eventTarget e) = false ∨
      relative_to_ok (eventTarget e) folder = false) :
    onEvent folder load statOf max_age_s e w = w := by
  obtain ⟨kind, isdir, src, dest⟩ := e
  cases kind <;>
    rcases h with hd | hc | hr <;>
      simp_all [onEvent, eventTarget, NewImageHandler_handle]

/-- C6, witnessed: a directory-creation event, a `.txt` file event, and a
move whose destination lies outside the watched directory all leave a
concrete world unchanged, although the loader would succeed. -/
theorem watcher_discards_filtered_witness :
    onEvent { parts := ["d"] } (fun _ => some [1]) (fun _ => some 100) 10
        { kind := .created, is_directory := true, src_path := { parts := ["d", "x.jpg"] },
          dest_path := { parts := ["d", "x.jpg"] } }
        { latest := { jpeg_bytes := [], seq := 0, path := none }, entries := [] } =
      { latest := { jpeg_bytes := [], seq := 0, path := none }, entries := [] } ∧
    onEvent { parts := ["d"] } (fun _ => some [1]) (fun _ => some 100) 10
        { kind := .created, is_directory := false, src_path := { parts := ["d", "x.txt"] },
          dest_path := { parts := ["d", "x.txt"] } }
        { latest := { jpeg_bytes := [], seq := 0, path := none }, entries := [] } =
      { latest := { jpeg_bytes := [], seq := 0, path := none }, entries := [] } ∧
    onEvent { parts := ["d"] } (fun _ => some [1]) (fun _ => some 100) 10
        { kind := .moved, is_directory := false, src_path := { parts := ["d", "x.jpg"] },
          dest_path := { parts := ["e", "x.jpg"] } }
        { latest := { jpeg_bytes := [], seq := 0, path := none }, entries := [] } =
      { latest := { jpeg_bytes := [], seq := 0, path := none }, entries := [] } :=
  ⟨watcher_discards_filtered { parts := ["d"] } (fun _ => some [1]) (fun _ => some 100) 10
      _ _ (Or.inl rfl),
   watcher_discards_filtered { parts := ["d"] } (fun _ => some [1]) (fun _ => some 100) 10
      _ _ (Or.inr (Or.inl (by decide))),
   watcher_discards_filtered { parts := ["d"] } (fun _ => some [1]) (fun _ => some 100) 10
      _ _ (Or.inr (Or.inr (by decide)))⟩

/-- C7: for a path that passes both filters, a failed normalization drops
the event silently (world unchanged, pruning not invoked, nothing raised);
a successful normalization publishes the canonical bytes with the source
path and then prunes the directory with that path as the current
reference. -/
theorem watcher_publish_on_success (folder : Path) (load : Path → Option (List Nat))
    (statOf : Path → Option ℚ) (max_age_s : ℚ) (path : Path) (w : World)
    (hc : _is_candidate_image path = true) (hr : relative_to_ok path folder = true) :
    (load path = none → NewImageHandler_handle folder load statOf max_age_s path w = w) ∧
    (∀ jpeg, load path = some jpeg →
      NewImageHandler_handle folder load statOf max_age_s path w =
        { latest := _update_latest w.latest jpeg path,
          entries := prune_older_than_current w.entries (some path) max_age_s
            (statOf path) }) := by
  constructor
  · intro hl; simp [NewImageHandler_handle, hc, hr, hl]
  · intro jpeg hl; simp [NewImageHandler_handle, hc, hr, hl]

/-- C7, witnessed: on a concrete world, a failing loader leaves everything
unchanged, and a succeeding loader publishes `[3]` with the source path and
prunes the stale entry. -/
theorem watcher_publish_on_success_witness :
    NewImageHandler_handle { parts := ["d"] } (fun _ => none) (fun _ => some 100) 10
        { parts := ["d", "x.jpg"] }
        { latest := { jpeg_bytes := [], seq := 0, path := none },
          entries := [{ path := { parts := ["d", "old.jpg"] }, is_file := true,
                        stat := some 50, unlink_ok := true }] } =
      { latest := { jpeg_bytes := [], seq := 0, path := none },
        entries := [{ path := { parts := ["d", "old.jpg"] }, is_file := true,
                      stat := some 50, unlink_ok := true }] } ∧
    NewImageHandler_handle { parts := ["d"] } (fun _ => some [3]) (fun _ => some 100) 10
        { parts := ["d", "x.jpg"] }
        { latest := { jpeg_bytes := [], seq := 0, path := none },
          entries := [{ path := { parts := ["d", "old.jpg"] }, is_file := true,
                        stat := some 50, unlink_ok := true }] } =
      { latest := _update_latest { jpeg_bytes := [], seq := 0, path := none } [3]
          { parts := ["d", "x.jpg"] },
        entries := prune_older_than_current
          [{ path := { parts := ["d", "old.jpg"] }, is_file := true, stat := some 50,
             unlink_ok := true }]
          (some { parts := ["d", "x.jpg"] }) 10 (some 100) } :=
  ⟨(watcher_publish_on_success { parts := ["d"] } (fun _ => none) (fun _ => some 100) 10
      { parts := ["d", "x.jpg"] } _ (by decide) (by decide)).1 rfl,
   (watcher_publish_on_success { parts := ["d"] } (fun _ => some [3]) (fun _ => some 100) 10
      { parts := ["d", "x.jpg"] } _ (by decide) (by decide)).2 [3] rfl⟩

/-- The bootstrap scan's candidate list: the folder's regular files passing
the candidate filter, in directory order. -/
def candidatesOf (entries : List Entry) : List Entry :=
  entries.filter (fun p => p.is_file && _is_candidate_image p.path)

/-- The bootstrap sort key `p.stat().st_mtime`; the default is only reached
when `stat` raised, in which case the whole sort raises instead. -/
def statD (e : Entry) : ℚ := e.stat.getD 0

/-- Insertion into a list already sorted by descending `statD`. -/
def insertDesc (e : Entry) : List Entry → List Entry
  | [] => [e]
  | f :: fs => if statD f < statD e then e :: f :: fs else f :: insertDesc e fs

/-- Model of `sorted(candidates, key=mtime, reverse=True)`: sort by descending mtime
(tie order is irrelevant below; only head-maximality is used). -/
def sortDesc : List Entry → List Entry
  | [] => []
  | e :: es => insertDesc e (sortDesc es)

theorem sortDesc_head_max : ∀ l : List Entry, l ≠ [] →
    ∃ c rest, sortDesc l = c :: rest ∧ c ∈ l ∧ ∀ x ∈ l, statD x ≤ statD c := by
  intro l
  induction l with
  | nil => intro h; exact absurd rfl h
  | cons e es ih =>
    intro _
    cases es with
    | nil =>
      refine ⟨e, [], rfl, List.Mem.head _, ?_⟩
      intro x hx
      exact le_of_eq (by rw [List.mem_singleton.mp hx])
    | cons f fs =>
      obtain ⟨c, rest, hsort, hcmem, hmax⟩ := ih (by simp)
      by_cases hlt : statD c < statD e
      · refine ⟨e, c :: rest, ?_, List.Mem.head _, ?_⟩
        · rw [sortDesc, hsort]
          simp [insertDesc, hlt]
        · intro x hx
          rcases List.mem_cons.mp hx with rfl | hx
          · exact le_refl _
          · exact le_trans (hmax x hx) (le_of_lt hlt)
      · refine ⟨c, insertDesc e rest, ?_, List.Mem.tail _ hcmem, ?_⟩
        · rw [sortDesc, hsort]
          simp [insertDesc, hlt]
        · intro x hx
          rcases List.mem_cons.mp hx with rfl | hx
          · exact not_lt.mp hlt
          · exact hmax x hx

/-- Model of `_bootstrap_folder(folder)`: the startup scan.  Candidates are sorted by
mtime, newest first; the sort key `p.stat().st_mtime` is not guarded, so a
candidate whose `stat` raises makes the whole bootstrap raise (modelled as
`none`).  With candidates present, the newest is loaded and published iff
normalization succeeds, and pruning then runs relative to it either way;
with no candidates nothing happens. -/
def _bootstrap_folder (load : Path → Option (List Nat)) (statOf : Path → Option ℚ)
    (max_age_s : ℚ) (w : World) : Option World :=
  if (candidatesOf w.entries).any (fun p => p.stat.isNone) then none
  else
    match sortDesc (candidatesOf w.entries) with
    | [] => some w
    | c :: _ =>
      some { latest := match load c.path with
               | some jpeg => _update_latest w.latest jpeg c.path
               | none => w.latest,
             entries := prune_older_than_current w.entries (some c.path) max_age_s
               (statOf c.path) }

/-- C8: at bootstrap, when every candidate can be stat'd: with no candidate
files the store and the directory are left exactly as they were; otherwise
the selected file is a candidate of maximal modification time, the store is
published with its bytes exactly when its normalization succeeds, and
pruning then runs relative to the selected file. -/
theorem bootstrap_contract (load : Path → Option (List Nat)) (statOf : Path → Option ℚ)
    (max_age_s : ℚ) (w : World)
    (hstat : ∀ e ∈ candidatesOf w.entries, e.stat.isNone = false) :
    (candidatesOf w.entries = [] → _bootstrap_folder load statOf max_age_s w = some w) ∧
    (∀ c rest, sortDesc (candidatesOf w.entries) = c :: rest →
      c ∈ candidatesOf w.entries ∧
      (∀ x ∈ candidatesOf w.entries, statD x ≤ statD c) ∧
      _bootstrap_folder load statOf max_age_s w =
        some { latest := match load c.path with
                 | some jpeg => _update_latest w.latest jpeg c.path
                 | none => w.latest,
               entries := prune_older_than_current w.entries (some c.path) max_age_s
                 (statOf c.path) }) := by
  have hany : (candidatesOf w.entries).any (fun p => p.stat.isNone) = false := by
    rw [List.any_eq_false]
    intro x hx
    simp [hstat x hx]
  constructor
  · intro hemp
    simp [_bootstrap_folder, hemp, sortDesc]
  · intro c rest hsort
    have hne : candidatesOf w.entries ≠ [] := by
      intro h0
      rw [h0] at hsort
      simp [sortDesc] at hsort
    obtain ⟨c', rest', hsort', hcmem, hmax⟩ := sortDesc_head_max _ hne
    rw [hsort] at hsort'
    injection hsort' with h1 h2
    subst h1
    refine ⟨hcmem, hmax, ?_⟩
    simp [_bootstrap_folder, hany, hsort]

/-- C8, witnessed: a directory holding a stale and a fresh candidate
publishes the fresh one (mtime 95 beats 50) and prunes relative to it, and
an empty directory bootstrap changes nothing. -/
theorem bootstrap_contract_witness :
    (({ path := { parts := ["d", "new.jpg"] }, is_file := true, stat := some 95,
        unlink_ok := true } : Entry) ∈ candidatesOf
        [{ path := { parts := ["d", "old.jpg"] }, is_file := true, stat := some 50,
           unlink_ok := true },
         { path := { parts := ["d", "new.jpg"] }, is_file := true, stat := some 95,
           unlink_ok := true }] ∧
      (∀ x ∈ candidatesOf
          [{ path := { parts := ["d", "old.jpg"] }, is_file := true, stat := some 50,
             unlink_ok := true },
           { path := { parts := ["d", "new.jpg"] }, is_file := true, stat := some 95,
             unlink_ok := true }],
        statD x ≤ statD { path := { parts := ["d", "new.jpg"] }, is_file := true, stat := some 95, unlink_ok := true }) ∧
      _bootstrap_folder (fun _ => some [4]) (fun _ => some 95) 10
          { latest := { jpeg_bytes := [], seq := 0, path := none },
            entries := [{ path := { parts := ["d", "old.jpg"] }, is_file := true,
                          stat := some 50, unlink_ok := true },
                        { path := { parts := ["d", "new.jpg"] }, is_file := true,
                          stat := some 95, unlink_ok := true }] } =
        some { latest := _update_latest { jpeg_bytes := [], seq := 0, path := none }
                 [4] { parts := ["d", "new.jpg"] },
               entries := prune_older_than_current
                 [{ path := { parts := ["d", "old.jpg"] }, is_file := true,
                    stat := some 50, unlink_ok := true },
                  { path := { parts := ["d", "new.jpg"] }, is_file := true,
                    stat := some 95, unlink_ok := true }]
                 (some { parts := ["d", "new.jpg"] }) 10 (some 95) }) ∧
    _bootstrap_folder (fun _ => some [4]) (fun _ => some 95) 10
        { latest := { jpeg_bytes := [], seq := 0, path := none }, entries := [] } =
      some { latest := { jpeg_bytes := [], seq := 0, path := none }, entries := [] } :=
  ⟨(bootstrap_contract (fun _ => some [4]) (fun _ => some 95) 10
      { latest := { jpeg_bytes := [], seq := 0, path := none },
        entries := [{ path := { parts := ["d", "old.jpg"] }, is_file := true,
                      stat := some 50, unlink_ok := true },
                    { path := { parts := ["d", "new.jpg"] }, is_file := true,
                      stat := some 95, unlink_ok := true }] } (by decide)).2
     { path := { parts := ["d", "new.jpg"] }, is_file := true, stat := some 95,
       unlink_ok := true }
     [{ path := { parts := ["d", "old.jpg"] }, is_file := true, stat := some 50,
        unlink_ok := true }]
     (by decide),
   (bootstrap_contract (fun _ => some [4]) (fun _ => some 95) 10
      { latest := { jpeg_bytes := [], seq := 0, path := none }, entries := [] }
      (by decide)).1 rfl⟩

/-- Model of `str.encode("ascii")`: the code points of the string's characters. -/
def asciiOf (s : String) : List Nat := s.data.map Char.toNat

/-- The generator's `boundary` constant. -/
def boundary : List Nat := asciiOf "--frame\r\n"

/-- The generator's `header_ct` constant. -/
def header_ct : List Nat := asciiOf "Content-Type: image/jpeg\r\n"

/-- The generator's per-part length line, blank separator line included. -/
def contentLengthHeader (n : Nat) : List Nat :=
  asciiOf ("Content-Length: " ++ toString n ++ "\r\n\r\n")

/-- Model of `frame = jpeg if jpeg else NO_FRAME_JPEG`: empty stored bytes are falsy,
so the precomputed placeholder is substituted. -/
def framePayload (stored noFrame : List Nat) : List Nat :=
  if stored = [] then noFrame else stored

/-- One multipart part exactly as `_mjpeg_generator` yields it: boundary
marker, content-type line, content-length line computed from the payload
about to be emitted, blank line, payload, trailing CRLF. -/
def mjpegPart (stored noFrame : List Nat) : List Nat :=
  boundary ++ header_ct ++ contentLengthHeader (framePayload stored noFrame).length ++
    framePayload stored noFrame ++ asciiOf "\r\n"

/-- Model of `frame_interval = 1.0 / target_fps if target_fps > 0.0 else 0.05`. -/
def frame_interval (target_fps : ℚ) : ℚ :=
  if 0 < target_fps then 1 / target_fps else 1 / 20

/-- The generator's pruning fallback period (`prune_every_n`). -/
def prune_every_n : Nat := 20

/-- C9: each emitted part is the boundary marker, the `image/jpeg`
content-type line, a content-length line whose value is the byte count of
the payload actually emitted, a blank line, the payload, and a trailing
CRLF; when the store's payload is empty, the payload is the placeholder and
the advertised length is the placeholder's (nonzero) byte count, not zero;
the frame interval is `1/rate` for a positive configured rate and 0.05 s
otherwise. -/
theorem mjpeg_part_contract (latest : LatestFrame) (noFrame : List Nat) (target_fps : ℚ)
    (hnf : noFrame ≠ []) :
    mjpegPart latest.jpeg_bytes noFrame =
      boundary ++ header_ct ++
        contentLengthHeader (framePayload latest.jpeg_bytes noFrame).length ++
        framePayload latest.jpeg_bytes noFrame ++ asciiOf "\r\n" ∧
    (latest.jpeg_bytes = [] →
      framePayload latest.jpeg_bytes noFrame = noFrame ∧
      (framePayload latest.jpeg_bytes noFrame).length = noFrame.length ∧
      (framePayload latest.jpeg_bytes noFrame).length ≠ 0) ∧
    (latest.jpeg_bytes ≠ [] → framePayload latest.jpeg_bytes noFrame = latest.jpeg_bytes) ∧
    (0 < target_fps → frame_interval target_fps = 1 / target_fps) ∧
    (¬ 0 < target_fps → frame_interval target_fps = 1 / 20) := by
  refine ⟨rfl, ?_, ?_, ?_, ?_⟩
  · intro hempty
    have hp : framePayload latest.jpeg_bytes noFrame = noFrame := by
      simp [framePayload, hempty]
    refine ⟨hp, by rw [hp], ?_⟩
    rw [hp]
    simpa using hnf
  · intro hne
    simp [framePayload, hne]
  · intro hpos
    simp [frame_interval, hpos]
  · intro hneg
    simp [frame_interval, hneg]

/-- C9, witnessed: an empty store with a two-byte placeholder at a 20 fps
target rate. -/
theorem mjpeg_part_contract_witness :
    mjpegPart ({ jpeg_bytes := [], seq := 0, path := none } : LatestFrame).jpeg_bytes
        [255, 216] =
      boundary ++ header_ct ++
        contentLengthHeader
          (framePayload ({ jpeg_bytes := [], seq := 0, path := none } : LatestFrame).jpeg_bytes
            [255, 216]).length ++
        framePayload ({ jpeg_bytes := [], seq := 0, path := none } : LatestFrame).jpeg_bytes
          [255, 216] ++ asciiOf "\r\n" ∧
    (({ jpeg_bytes := [], seq := 0, path := none } : LatestFrame).jpeg_bytes = [] →
      framePayload ({ jpeg_bytes := [], seq := 0, path := none } : LatestFrame).jpeg_bytes
          [255, 216] = [255, 216] ∧
      (framePayload ({ jpeg_bytes := [], seq := 0, path := none } : LatestFrame).jpeg_bytes
          [255, 216]).length = ([255, 216] : List Nat).length ∧
      (framePayload ({ jpeg_bytes := [], seq := 0, path := none } : LatestFrame).jpeg_bytes
          [255, 216]).length ≠ 0) ∧
    (({ jpeg_bytes := [], seq := 0, path := none } : LatestFrame).jpeg_bytes ≠ [] →
      framePayload ({ jpeg_bytes := [], seq := 0, path := none } : LatestFrame).jpeg_bytes
          [255, 216] =
        ({ jpeg_bytes := [], seq := 0, path := none } : LatestFrame).jpeg_bytes) ∧
    ((0 : ℚ) < 20 → frame_interval 20 = 1 / 20) ∧
    (¬ (0 : ℚ) < 20 → frame_interval 20 = 1 / 20) :=
  mjpeg_part_contract { jpeg_bytes := [], seq := 0, path := none } [255, 216] 20
    (by decide)

end MjpegServer
